import Mathlib

/-!
Shallow embedding of the transaction-ledger core of `src/main.rs`.

Modelling conventions:
- `rust_decimal::Decimal` amounts inside the state machine are modelled as `Int`
  (exact value arithmetic; the core only uses `+`, `-` and `≤`, which the
  fixed-scale decimal type implements exactly, so `Int` values in units of
  10⁻⁴ are a faithful value model under the scale-4 ingestion contract).
- `HashMap<u32, Vec<SituatedRecord>>` is modelled as a total function
  `Nat → List SituatedRecord`; an absent key is the empty list (in the Rust
  code an entry, once created, is never empty, so the two are in bijection on
  reachable states).
- `warn!` / `error!` log calls are modelled by a `List LogLevel` emitted by
  each transition function (the unconditional `trace!` call in `transact` is
  not modelled; only warning/error reporting matters to the spec).
- Functions keep the Rust names and branch structure.
-/

namespace PlayingWithMoney

inductive TransactionType where
  | Withdrawal
  | Deposit
  | Dispute
  | Resolve
  | Chargeback
deriving DecidableEq

structure Record where
  transaction_type : TransactionType
  client_id : Nat
  transaction_id : Nat
  amount : Int
deriving DecidableEq

structure SituatedRecord where
  monotonic_counter : Nat
  record : Record
deriving DecidableEq

inductive LogLevel where
  | warn
  | error
deriving DecidableEq

structure ClientState where
  client_id : Nat
  available_funds : Int
  held_funds : Int
  locked : Bool
  client_transactions : Nat → List SituatedRecord

/-- Result of one `transact` call: the returned bool, the mutated state and
the warnings/errors reported on the way. -/
structure TxResult where
  accepted : Bool
  state : ClientState
  logs : List LogLevel

/-- `ClientState::new` -/
def ClientState.new (client_id : Nat) : ClientState :=
  { client_id := client_id
    available_funds := 0
    held_funds := 0
    locked := false
    client_transactions := fun _ => [] }

/-- `get_total_funds` -/
def ClientState.get_total_funds (s : ClientState) : Int :=
  s.held_funds + s.available_funds

/-- The predicate used by `iter().find` in `transact_dispute` and
`transaction_resolution`: the record is a posted Withdrawal or Deposit. -/
def postedP (r : SituatedRecord) : Bool :=
  match r.record.transaction_type with
  | .Withdrawal => true
  | .Deposit => true
  | _ => false

def isDisputeRec (r : SituatedRecord) : Bool :=
  match r.record.transaction_type with
  | .Dispute => true
  | _ => false

def isResolutionRec (r : SituatedRecord) : Bool :=
  match r.record.transaction_type with
  | .Resolve => true
  | .Chargeback => true
  | _ => false

/-- `transact_withdrawal_or_deposit` -/
def transact_withdrawal_or_deposit (s : ClientState) (sr : SituatedRecord) : TxResult :=
  let amount := sr.record.amount
  match sr.record.transaction_type, s.locked with
  | .Withdrawal, false =>
      if amount ≤ s.available_funds then
        { accepted := true
          state := { s with available_funds := s.available_funds - amount }
          logs := [] }
      else
        { accepted := true, state := s, logs := [.warn] }
  | .Withdrawal, true =>
      { accepted := true, state := s, logs := [.warn] }
  | .Deposit, _ =>
      { accepted := true
        state := { s with available_funds := s.available_funds + amount }
        logs := [] }
  | _, _ => { accepted := false, state := s, logs := [] }

/-- `push_transaction` -/
def push_transaction (s : ClientState) (tx_id : Nat) (r : SituatedRecord) : ClientState :=
  { s with client_transactions := fun t =>
      if t = tx_id then s.client_transactions t ++ [r] else s.client_transactions t }

/-- `transact_dispute`. The empty-list branch is the Rust `else` branch of
`if let Some(all_prev_record) = get(&tx_id)` (HashMap miss, `error!`). -/
def transact_dispute (s : ClientState) (dispute : SituatedRecord) : TxResult :=
  let tx_id := dispute.record.transaction_id
  match s.client_transactions tx_id with
  | [] => { accepted := false, state := s, logs := [.error] }
  | all_prev_record =>
    match all_prev_record.find? postedP with
    | some disputed_target =>
        match disputed_target.record.transaction_type with
        | .Withdrawal =>
            { accepted := true
              state := { s with held_funds := s.held_funds + disputed_target.record.amount }
              logs := [] }
        | .Deposit =>
            { accepted := true
              state := { s with
                available_funds := s.available_funds - disputed_target.record.amount
                held_funds := s.held_funds + disputed_target.record.amount }
              logs := [] }
        | _ => { accepted := true, state := s, logs := [] }
    | none => { accepted := false, state := s, logs := [.warn] }

/-- `transact_resolve` -/
def transact_resolve (s : ClientState) (prev_type : TransactionType) (tx_amount : Int) :
    TxResult :=
  match prev_type with
  | .Withdrawal =>
      { accepted := true
        state := { s with held_funds := s.held_funds - tx_amount
                          available_funds := s.available_funds + tx_amount }
        logs := [] }
  | .Deposit =>
      { accepted := true
        state := { s with held_funds := s.held_funds - tx_amount
                          available_funds := s.available_funds + tx_amount }
        logs := [] }
  | _ => { accepted := false, state := s, logs := [] }

/-- `transact_chargeback` -/
def transact_chargeback (s : ClientState) (prev_type : TransactionType) (tx_amount : Int) :
    TxResult :=
  match prev_type with
  | .Withdrawal =>
      { accepted := true
        state := { s with held_funds := s.held_funds - tx_amount, locked := true }
        logs := [] }
  | .Deposit =>
      { accepted := true
        state := { s with held_funds := s.held_funds - tx_amount, locked := true }
        logs := [] }
  | _ => { accepted := false, state := s, logs := [] }

/-- `transaction_resolution`. The `(Some, Some)/(None, None)` tuple in the Rust
code is collapsed into the equivalent direct match; the empty-list branch is
the HashMap-miss `error!` branch, the `find` failure the other `error!`. -/
def transaction_resolution (s : ClientState) (resolution : SituatedRecord) : TxResult :=
  let tx_id := resolution.record.transaction_id
  match s.client_transactions tx_id with
  | [] => { accepted := false, state := s, logs := [.error] }
  | all_prev_record =>
    match all_prev_record.find? postedP with
    | some prev_record =>
        match resolution.record.transaction_type with
        | .Resolve =>
            transact_resolve s prev_record.record.transaction_type prev_record.record.amount
        | .Chargeback =>
            transact_chargeback s prev_record.record.transaction_type prev_record.record.amount
        | _ => { accepted := false, state := s, logs := [] }
    | none => { accepted := false, state := s, logs := [.error] }

/-- `transact`: the central dispatch on (kind, locked) and history length. -/
def transact (s : ClientState) (sr : SituatedRecord) : TxResult :=
  let tx_id := sr.record.transaction_id
  let len := (s.client_transactions tx_id).length
  match sr.record.transaction_type, s.locked with
  | .Withdrawal, _ =>
      if len = 0 then transact_withdrawal_or_deposit s sr
      else { accepted := false, state := s, logs := [.warn] }
  | .Deposit, _ =>
      if len = 0 then transact_withdrawal_or_deposit s sr
      else { accepted := false, state := s, logs := [.warn] }
  | .Dispute, false =>
      if len = 1 then transact_dispute s sr
      else { accepted := false, state := s, logs := [.warn] }
  | .Resolve, false =>
      if len = 2 then transaction_resolution s sr
      else { accepted := false, state := s, logs := [.warn] }
  | .Chargeback, false =>
      if len = 2 then transaction_resolution s sr
      else { accepted := false, state := s, logs := [.warn] }
  | .Dispute, true => { accepted := false, state := s, logs := [.warn] }
  | .Resolve, true => { accepted := false, state := s, logs := [.warn] }
  | .Chargeback, true => { accepted := false, state := s, logs := [.warn] }

/-- `add_transaction`: transact, then push to history iff accepted. -/
def add_transaction (s : ClientState) (sr : SituatedRecord) : ClientState :=
  let tx_id := sr.record.transaction_id
  let t := transact s sr
  if t.accepted then push_transaction t.state tx_id sr else t.state

/-- `process_record`: route to the owning ledger, creating it on first sight. -/
def process_record (sr : SituatedRecord) (clients : Nat → Option ClientState) :
    Nat → Option ClientState :=
  let client_id := sr.record.client_id
  match clients client_id with
  | some client_state =>
      fun c => if c = client_id then some (add_transaction client_state sr) else clients c
  | none =>
      fun c =>
        if c = client_id then some (add_transaction (ClientState.new client_id) sr)
        else clients c

/-- `play_with_money`, restricted to its pure core: fold the (already
sequenced) records through `process_record`. -/
def play_with_money (events : List SituatedRecord) (clients : Nat → Option ClientState) :
    Nat → Option ClientState :=
  events.foldl (fun cs sr => process_record sr cs) clients

/-- Run a single account's ledger from scratch (what `process_record` does for
one `client_id`). -/
def run_client (client_id : Nat) (events : List SituatedRecord) : ClientState :=
  events.foldl add_transaction (ClientState.new client_id)

/-- States of one ledger reachable from `ClientState::new` by `add_transaction`. -/
inductive Reachable : ClientState → Prop where
  | base (client_id : Nat) : Reachable (ClientState.new client_id)
  | step {s : ClientState} (sr : SituatedRecord) (h : Reachable s) :
      Reachable (add_transaction s sr)

/-- Shape invariant of one `history[tx_id]` list: empty, or a posted
transaction optionally followed by one dispute and then one resolution. -/
def histInv (l : List SituatedRecord) : Prop :=
  l = [] ∨ ∃ p, postedP p = true ∧
    (l = [p] ∨ ∃ d, isDisputeRec d = true ∧
      (l = [p, d] ∨ ∃ f, isResolutionRec f = true ∧ l = [p, d, f]))


/-! ## Numeric ingestion layer (deserialization contract) -/

/-- Decimal number as a scaled integer: the value is mantissa / 10 ^ scale.
Modelled from the spec: the `rust_decimal::Decimal` type is an external
dependency, not code of this repository; the spec's numeric contract speaks
of decimal literal strings carrying up to a fixed number of fractional
digits. -/
structure Decimal where
  mantissa : Int
  scale : Nat
deriving DecidableEq

/-- Round m / f half-to-even (bankers rounding) on a magnitude.
Modelled from the spec: the default midpoint strategy of the external
dependency's rounding. -/
def roundHalfEven (m f : Nat) : Nat :=
  let q := m / f
  let r := m % f
  if 2 * r < f then q
  else if f < 2 * r then q + 1
  else if q % 2 = 0 then q else q + 1

/-- `round_dp`: identity when the scale is already within `dp`, otherwise
drop fractional digits rounding half-to-even on the magnitude and keeping
the sign. Modelled from the spec: "all values are rounded to 4 fractional
digits before reaching the core". -/
def round_dp (dp : Nat) (d : Decimal) : Decimal :=
  if d.scale ≤ dp then d
  else
    let f := 10 ^ (d.scale - dp)
    let mag := roundHalfEven d.mantissa.natAbs f
    { mantissa := if d.mantissa < 0 then -(mag : Int) else (mag : Int), scale := dp }

def digitVal (c : Char) : Option Nat :=
  if c.isDigit then some (c.toNat - 48) else none

def parseDigitsAcc : List Char → Nat → Option Nat
  | [], acc => some acc
  | c :: cs, acc =>
    match digitVal c with
    | some d => parseDigitsAcc cs (acc * 10 + d)
    | none => none

/-- `Decimal::from_str` on a plain decimal literal: optional sign, integer
digits, optional point and fraction digits. Modelled from the spec: the
parser lives in the external dependency, not in this repository; the spec
promises "a decimal literal string". -/
def decimalFromChars (cs : List Char) : Option Decimal :=
  let signAndBody : Bool × List Char :=
    match cs with
    | '-' :: t => (true, t)
    | '+' :: t => (false, t)
    | t => (false, t)
  let neg := signAndBody.1
  let body := signAndBody.2
  let intPart := body.takeWhile (fun c => c ≠ '.')
  let rest := body.dropWhile (fun c => c ≠ '.')
  match rest with
  | [] =>
    if intPart.isEmpty then none
    else
      match parseDigitsAcc intPart 0 with
      | some n => some { mantissa := if neg then -(n : Int) else (n : Int), scale := 0 }
      | none => none
  | _ :: frac =>
    if frac.isEmpty ∨ frac.any (fun c => c = '.') then none
    else
      match parseDigitsAcc intPart 0, parseDigitsAcc frac 0 with
      | some i, some f =>
          some { mantissa :=
                   if neg then -((i * 10 ^ frac.length + f : Nat) : Int)
                   else ((i * 10 ^ frac.length + f : Nat) : Int)
                 scale := frac.length }
      | _, _ => none

/-- `from_string_with_precision`: the empty string is Decimal::ZERO,
anything else is parsed and then rounded with `round_dp precision`.
`Option` stands for the Rust `Result`. -/
def from_string_with_precision (val : String) (precision : Nat) : Option Decimal :=
  if val.isEmpty then some { mantissa := 0, scale := 0 }
  else (decimalFromChars val.data).map (round_dp precision)

/-- `PRECISION` -/
def PRECISION : Nat := 4

/-- `deserialize_with_precision_of_4`, stripped of the serde plumbing. -/
def deserialize_with_precision_of_4 (val : String) : Option Decimal :=
  from_string_with_precision val PRECISION

/-! ## Concrete scenario inputs for witnesses and counterexamples -/

/-- Deposit 10, withdraw 5: available 5, held 0, both tx posted. -/
def c1_base : ClientState :=
  run_client 5 [⟨0, ⟨.Deposit, 5, 1, 10⟩⟩, ⟨1, ⟨.Withdrawal, 5, 2, 5⟩⟩]

def c1_dispute : SituatedRecord := ⟨2, ⟨.Dispute, 5, 2, 0⟩⟩

def c1_resolve : SituatedRecord := ⟨3, ⟨.Resolve, 5, 2, 0⟩⟩

/-- Deposit 10 then dispute of tx 1: available 0, held 10, unlocked. -/
def c5_pre : ClientState :=
  run_client 9 [⟨0, ⟨.Deposit, 9, 1, 10⟩⟩, ⟨1, ⟨.Dispute, 9, 1, 0⟩⟩]

def c5_cb : SituatedRecord := ⟨2, ⟨.Chargeback, 9, 1, 0⟩⟩

/-- Deposit, dispute, chargeback: a locked account. -/
def c2_locked : ClientState := add_transaction c5_pre c5_cb

def c2_withdrawal : SituatedRecord := ⟨3, ⟨.Withdrawal, 9, 2, 3⟩⟩

/-- Scenario B of the spec: deposit 5, then try to withdraw 9. -/
def c3_base : ClientState := run_client 2 [⟨0, ⟨.Deposit, 2, 1, 5⟩⟩]

def c3_withdrawal : SituatedRecord := ⟨1, ⟨.Withdrawal, 2, 2, 9⟩⟩

/-- Scenario E of the spec: deposit 20, withdraw 5. -/
def c4_base : ClientState :=
  run_client 5 [⟨0, ⟨.Deposit, 5, 1, 20⟩⟩, ⟨1, ⟨.Withdrawal, 5, 2, 5⟩⟩]

def c4_dispute : SituatedRecord := ⟨2, ⟨.Dispute, 5, 2, 0⟩⟩

/-- Scenario F of the spec: the events for the duplicate-id account. -/
def c6_events : List SituatedRecord := [⟨0, ⟨.Deposit, 6, 1, 5⟩⟩]

def c6_dup : SituatedRecord := ⟨1, ⟨.Deposit, 6, 1, 3⟩⟩

/-- A dispute on a tx that was never posted, on a fresh account. -/
def c7_event : SituatedRecord := ⟨0, ⟨.Dispute, 1, 7, 0⟩⟩

/-- Deposit 5, withdraw all 5, then dispute the deposit: available −5. -/
def c8_events : List SituatedRecord :=
  [⟨0, ⟨.Deposit, 1, 1, 5⟩⟩, ⟨1, ⟨.Withdrawal, 1, 2, 5⟩⟩, ⟨2, ⟨.Dispute, 1, 1, 0⟩⟩]

/-- Deposit, dispute, chargeback on one tx id. -/
def c9_events : List SituatedRecord :=
  [⟨0, ⟨.Deposit, 5, 1, 10⟩⟩, ⟨1, ⟨.Dispute, 5, 1, 0⟩⟩, ⟨2, ⟨.Chargeback, 5, 1, 0⟩⟩]

def c9_bad : SituatedRecord := ⟨0, ⟨.Dispute, 4, 3, 0⟩⟩

/-- An internally inconsistent state (not reachable): `history[3]` is
non-empty but contains no posted Deposit/Withdrawal. -/
def c9_bad_state : ClientState :=
  { client_id := 4
    available_funds := 0
    held_funds := 0
    locked := false
    client_transactions := fun t => if t = 3 then [⟨0, ⟨.Dispute, 4, 3, 0⟩⟩] else [] }

def c9_bad_dispute : SituatedRecord := ⟨1, ⟨.Dispute, 4, 3, 0⟩⟩

def c10_input : String := String.mk ['1', '.', '2', '3', '4', '5', '6']

def c4_p : SituatedRecord := ⟨1, ⟨.Withdrawal, 5, 2, 5⟩⟩

/-- Scenario C of the spec: deposit 10 on account 3. -/
def c1w_base : ClientState := run_client 3 [⟨0, ⟨.Deposit, 3, 1, 10⟩⟩]

def c1w_p : SituatedRecord := ⟨0, ⟨.Deposit, 3, 1, 10⟩⟩

def c1w_dispute : SituatedRecord := ⟨1, ⟨.Dispute, 3, 1, 0⟩⟩

def c1w_resolve : SituatedRecord := ⟨2, ⟨.Resolve, 3, 1, 0⟩⟩


/-! ## Structural helper lemmas -/

theorem transact_withdrawal_or_deposit_hist (s : ClientState) (sr : SituatedRecord) :
    (transact_withdrawal_or_deposit s sr).state.client_transactions = s.client_transactions := by
  unfold transact_withdrawal_or_deposit
  dsimp only
  split <;> first | rfl | (split <;> rfl)

theorem transact_dispute_hist (s : ClientState) (sr : SituatedRecord) :
    (transact_dispute s sr).state.client_transactions = s.client_transactions := by
  unfold transact_dispute
  dsimp only
  split
  · rfl
  · split
    · split <;> rfl
    · rfl

theorem transact_resolve_hist (s : ClientState) (pt : TransactionType) (a : Int) :
    (transact_resolve s pt a).state.client_transactions = s.client_transactions := by
  unfold transact_resolve
  split <;> rfl

theorem transact_chargeback_hist (s : ClientState) (pt : TransactionType) (a : Int) :
    (transact_chargeback s pt a).state.client_transactions = s.client_transactions := by
  unfold transact_chargeback
  split <;> rfl

theorem transaction_resolution_hist (s : ClientState) (sr : SituatedRecord) :
    (transaction_resolution s sr).state.client_transactions = s.client_transactions := by
  unfold transaction_resolution
  dsimp only
  split
  · rfl
  · split
    · split
      · exact transact_resolve_hist ..
      · exact transact_chargeback_hist ..
      · rfl
    · rfl

theorem transact_hist (s : ClientState) (sr : SituatedRecord) :
    (transact s sr).state.client_transactions = s.client_transactions := by
  unfold transact
  dsimp only
  split <;>
    first
      | rfl
      | (split
          <;> first
            | rfl
            | exact transact_withdrawal_or_deposit_hist ..
            | exact transact_dispute_hist ..
            | exact transaction_resolution_hist ..)


theorem transact_withdrawal_or_deposit_rejected (s : ClientState) (sr : SituatedRecord)
    (h : (transact_withdrawal_or_deposit s sr).accepted = false) :
    (transact_withdrawal_or_deposit s sr).state = s := by
  unfold transact_withdrawal_or_deposit at h ⊢
  dsimp only at h ⊢
  split at h <;> first | rfl | (split at h <;> simp_all) | simp_all

theorem transact_dispute_rejected (s : ClientState) (sr : SituatedRecord)
    (h : (transact_dispute s sr).accepted = false) :
    (transact_dispute s sr).state = s := by
  unfold transact_dispute at h ⊢
  dsimp only at h ⊢
  split at h
  · rfl
  · split at h
    · split at h <;> simp_all
    · rfl

theorem transact_resolve_rejected (s : ClientState) (pt : TransactionType) (a : Int)
    (h : (transact_resolve s pt a).accepted = false) : (transact_resolve s pt a).state = s := by
  unfold transact_resolve at h ⊢
  split at h <;> first | rfl | simp_all

theorem transact_chargeback_rejected (s : ClientState) (pt : TransactionType) (a : Int)
    (h : (transact_chargeback s pt a).accepted = false) :
    (transact_chargeback s pt a).state = s := by
  unfold transact_chargeback at h ⊢
  split at h <;> first | rfl | simp_all

theorem transaction_resolution_rejected (s : ClientState) (sr : SituatedRecord)
    (h : (transaction_resolution s sr).accepted = false) :
    (transaction_resolution s sr).state = s := by
  unfold transaction_resolution at h ⊢
  dsimp only at h ⊢
  split at h
  · rfl
  · split at h
    · split at h
      · exact transact_resolve_rejected _ _ _ h
      · exact transact_chargeback_rejected _ _ _ h
      · rfl
    · rfl

theorem transact_rejected (s : ClientState) (sr : SituatedRecord)
    (h : (transact s sr).accepted = false) : (transact s sr).state = s := by
  unfold transact at h ⊢
  dsimp only at h ⊢
  split at h <;>
    first
      | rfl
      | (split at h <;> rename_i hc <;>
          first
            | (rw [if_pos hc]
               first
                 | exact transact_withdrawal_or_deposit_rejected _ _ h
                 | exact transact_dispute_rejected _ _ h
                 | exact transaction_resolution_rejected _ _ h)
            | (rw [if_neg hc]))

theorem push_transaction_locked (s : ClientState) (tx : Nat) (r : SituatedRecord) :
    (push_transaction s tx r).locked = s.locked := rfl

theorem push_transaction_available (s : ClientState) (tx : Nat) (r : SituatedRecord) :
    (push_transaction s tx r).available_funds = s.available_funds := rfl

theorem push_transaction_held (s : ClientState) (tx : Nat) (r : SituatedRecord) :
    (push_transaction s tx r).held_funds = s.held_funds := rfl

theorem add_transaction_locked (s : ClientState) (sr : SituatedRecord) :
    (add_transaction s sr).locked = (transact s sr).state.locked := by
  unfold add_transaction
  dsimp only
  split <;> rfl

theorem add_transaction_available (s : ClientState) (sr : SituatedRecord) :
    (add_transaction s sr).available_funds = (transact s sr).state.available_funds := by
  unfold add_transaction
  dsimp only
  split <;> rfl

theorem add_transaction_held (s : ClientState) (sr : SituatedRecord) :
    (add_transaction s sr).held_funds = (transact s sr).state.held_funds := by
  unfold add_transaction
  dsimp only
  split <;> rfl

theorem add_transaction_hist (s : ClientState) (sr : SituatedRecord) (t : Nat) :
    (add_transaction s sr).client_transactions t =
      if (transact s sr).accepted = true ∧ t = sr.record.transaction_id
      then s.client_transactions t ++ [sr]
      else s.client_transactions t := by
  unfold add_transaction
  dsimp only
  by_cases ha : (transact s sr).accepted = true
  · rw [if_pos ha]
    show (push_transaction (transact s sr).state sr.record.transaction_id sr).client_transactions t = _
    unfold push_transaction
    dsimp only
    rw [transact_hist]
    by_cases ht : t = sr.record.transaction_id
    · rw [if_pos ht, if_pos ⟨ha, ht⟩]
    · rw [if_neg ht, if_neg (by simp [ht])]
  · have hb : (transact s sr).accepted = false := by
      cases hx : (transact s sr).accepted
      · rfl
      · exact absurd hx ha
    rw [if_neg (by simp [hb]), hb]
    show (transact s sr).state.client_transactions t = _
    rw [transact_hist, if_neg (by simp [hb])]

theorem transact_accepted_shape (s : ClientState) (sr : SituatedRecord)
    (h : (transact s sr).accepted = true) :
    (postedP sr = true ∧ (s.client_transactions sr.record.transaction_id).length = 0) ∨
    (isDisputeRec sr = true ∧ s.locked = false ∧
      (s.client_transactions sr.record.transaction_id).length = 1) ∨
    (isResolutionRec sr = true ∧ s.locked = false ∧
      (s.client_transactions sr.record.transaction_id).length = 2) := by
  unfold transact at h
  dsimp only at h
  split at h
  case h_1 heq =>
    split at h
    · next hlen => exact Or.inl ⟨by simp [postedP, heq], hlen⟩
    · simp at h
  case h_2 heq =>
    split at h
    · next hlen => exact Or.inl ⟨by simp [postedP, heq], hlen⟩
    · simp at h
  case h_3 heq hlock =>
    split at h
    · next hlen => exact Or.inr (Or.inl ⟨by simp [isDisputeRec, heq], hlock, hlen⟩)
    · simp at h
  case h_4 heq hlock =>
    split at h
    · next hlen => exact Or.inr (Or.inr ⟨by simp [isResolutionRec, heq], hlock, hlen⟩)
    · simp at h
  case h_5 heq hlock =>
    split at h
    · next hlen => exact Or.inr (Or.inr ⟨by simp [isResolutionRec, heq], hlock, hlen⟩)
    · simp at h
  case h_6 => simp at h
  case h_7 => simp at h
  case h_8 => simp at h

theorem histInv_len1 {l : List SituatedRecord} (h : histInv l) (hl : l.length = 1) :
    ∃ p, postedP p = true ∧ l = [p] := by
  rcases h with rfl | ⟨p, hp, rfl | ⟨d, hd, rfl | ⟨f, hf, rfl⟩⟩⟩
  · simp at hl
  · exact ⟨p, hp, rfl⟩
  · simp at hl
  · simp at hl

theorem histInv_len2 {l : List SituatedRecord} (h : histInv l) (hl : l.length = 2) :
    ∃ p d, postedP p = true ∧ isDisputeRec d = true ∧ l = [p, d] := by
  rcases h with rfl | ⟨p, hp, rfl | ⟨d, hd, rfl | ⟨f, hf, rfl⟩⟩⟩
  · simp at hl
  · simp at hl
  · exact ⟨p, d, hp, hd, rfl⟩
  · simp at hl

theorem histInv_length_le {l : List SituatedRecord} (h : histInv l) : l.length ≤ 3 := by
  rcases h with rfl | ⟨p, hp, rfl | ⟨d, hd, rfl | ⟨f, hf, rfl⟩⟩⟩ <;> simp

theorem histInv_head_posted {l : List SituatedRecord} (h : histInv l) (hne : l ≠ []) :
    ∃ p t, l = p :: t ∧ postedP p = true := by
  rcases h with rfl | ⟨p, hp, rfl | ⟨d, hd, rfl | ⟨f, hf, rfl⟩⟩⟩
  · exact absurd rfl hne
  · exact ⟨p, [], rfl, hp⟩
  · exact ⟨p, [d], rfl, hp⟩
  · exact ⟨p, [d, f], rfl, hp⟩

theorem histInv_add_transaction (s : ClientState) (sr : SituatedRecord)
    (h : ∀ t, histInv (s.client_transactions t)) (t : Nat) :
    histInv ((add_transaction s sr).client_transactions t) := by
  rw [add_transaction_hist]
  split
  · next hc =>
      obtain ⟨hacc, rfl⟩ := hc
      rcases transact_accepted_shape s sr hacc with ⟨hp, hlen⟩ | ⟨hd, _, hlen⟩ | ⟨hf, _, hlen⟩
      · rw [List.length_eq_zero.mp hlen]
        exact Or.inr ⟨sr, hp, Or.inl rfl⟩
      · obtain ⟨p, hp, heq⟩ := histInv_len1 (h _) hlen
        rw [heq]
        exact Or.inr ⟨p, hp, Or.inr ⟨sr, hd, Or.inl rfl⟩⟩
      · obtain ⟨p, d, hp, hd, heq⟩ := histInv_len2 (h _) hlen
        rw [heq]
        exact Or.inr ⟨p, hp, Or.inr ⟨d, hd, Or.inr ⟨sr, hf, rfl⟩⟩⟩
  · exact h t

theorem reachable_histInv {s : ClientState} (h : Reachable s) :
    ∀ t, histInv (s.client_transactions t) := by
  induction h with
  | base cid => exact fun t => Or.inl rfl
  | step sr hs ih => exact fun t => histInv_add_transaction _ sr ih t

theorem add_transaction_accepted_eq (s : ClientState) (sr : SituatedRecord)
    (h : (transact s sr).accepted = true) :
    add_transaction s sr =
      push_transaction (transact s sr).state sr.record.transaction_id sr := by
  unfold add_transaction
  dsimp only
  rw [if_pos h]

theorem add_transaction_rejected_eq (s : ClientState) (sr : SituatedRecord)
    (h : (transact s sr).accepted = false) :
    add_transaction s sr = s := by
  unfold add_transaction
  dsimp only
  rw [if_neg (by simp [h]), transact_rejected _ _ h]

theorem transact_eq_wd (s : ClientState) (sr : SituatedRecord)
    (hp : postedP sr = true)
    (hlen : (s.client_transactions sr.record.transaction_id).length = 0) :
    transact s sr = transact_withdrawal_or_deposit s sr := by
  unfold postedP at hp
  unfold transact
  dsimp only
  split at hp <;> simp_all

theorem transact_posted_dup (s : ClientState) (sr : SituatedRecord)
    (hp : postedP sr = true)
    (hlen : (s.client_transactions sr.record.transaction_id).length ≠ 0) :
    transact s sr = { accepted := false, state := s, logs := [.warn] } := by
  unfold postedP at hp
  unfold transact
  dsimp only
  split at hp <;> simp_all

theorem transact_eq_dispute (s : ClientState) (sr : SituatedRecord)
    (ht : sr.record.transaction_type = .Dispute) (hl : s.locked = false)
    (hlen : (s.client_transactions sr.record.transaction_id).length = 1) :
    transact s sr = transact_dispute s sr := by
  unfold transact
  dsimp only
  rw [ht, hl]
  simp [hlen]

theorem transact_eq_resolution (s : ClientState) (sr : SituatedRecord)
    (ht : isResolutionRec sr = true) (hl : s.locked = false)
    (hlen : (s.client_transactions sr.record.transaction_id).length = 2) :
    transact s sr = transaction_resolution s sr := by
  unfold isResolutionRec at ht
  unfold transact
  dsimp only
  split at ht <;> simp_all

theorem transact_withdrawal_locked_eq (s : ClientState) (sr : SituatedRecord)
    (ht : sr.record.transaction_type = .Withdrawal) (hl : s.locked = true) :
    transact_withdrawal_or_deposit s sr = { accepted := true, state := s, logs := [.warn] } := by
  unfold transact_withdrawal_or_deposit
  dsimp only
  rw [ht, hl]

theorem transact_withdrawal_insufficient_eq (s : ClientState) (sr : SituatedRecord)
    (ht : sr.record.transaction_type = .Withdrawal) (hl : s.locked = false)
    (hin : ¬ sr.record.amount ≤ s.available_funds) :
    transact_withdrawal_or_deposit s sr = { accepted := true, state := s, logs := [.warn] } := by
  unfold transact_withdrawal_or_deposit
  dsimp only
  rw [ht, hl]
  simp [hin]

theorem transact_withdrawal_sufficient_eq (s : ClientState) (sr : SituatedRecord)
    (ht : sr.record.transaction_type = .Withdrawal) (hl : s.locked = false)
    (hin : sr.record.amount ≤ s.available_funds) :
    transact_withdrawal_or_deposit s sr =
      { accepted := true
        state := { s with available_funds := s.available_funds - sr.record.amount }
        logs := [] } := by
  unfold transact_withdrawal_or_deposit
  dsimp only
  rw [ht, hl]
  simp [hin]

theorem transact_deposit_eq (s : ClientState) (sr : SituatedRecord)
    (ht : sr.record.transaction_type = .Deposit) :
    transact_withdrawal_or_deposit s sr =
      { accepted := true
        state := { s with available_funds := s.available_funds + sr.record.amount }
        logs := [] } := by
  unfold transact_withdrawal_or_deposit
  dsimp only
  rw [ht]

theorem find_posted_cons (p : SituatedRecord) (l : List SituatedRecord)
    (hp : postedP p = true) : (p :: l).find? postedP = some p := by
  simp [List.find?, hp]

theorem transact_dispute_eq (s : ClientState) (d : SituatedRecord) (p : SituatedRecord)
    (l : List SituatedRecord)
    (hhist : s.client_transactions d.record.transaction_id = p :: l)
    (hp : postedP p = true) :
    transact_dispute s d =
      match p.record.transaction_type with
      | .Withdrawal =>
          { accepted := true
            state := { s with held_funds := s.held_funds + p.record.amount }
            logs := [] }
      | .Deposit =>
          { accepted := true
            state := { s with
              available_funds := s.available_funds - p.record.amount
              held_funds := s.held_funds + p.record.amount }
            logs := [] }
      | _ => { accepted := true, state := s, logs := [] } := by
  unfold transact_dispute
  dsimp only
  rw [hhist]
  dsimp only
  rw [find_posted_cons p l hp]

theorem transaction_resolution_eq (s : ClientState) (r : SituatedRecord) (p : SituatedRecord)
    (l : List SituatedRecord)
    (hhist : s.client_transactions r.record.transaction_id = p :: l)
    (hp : postedP p = true) :
    transaction_resolution s r =
      match r.record.transaction_type with
      | .Resolve => transact_resolve s p.record.transaction_type p.record.amount
      | .Chargeback => transact_chargeback s p.record.transaction_type p.record.amount
      | _ => { accepted := false, state := s, logs := [] } := by
  unfold transaction_resolution
  dsimp only
  rw [hhist]
  dsimp only
  rw [find_posted_cons p l hp]

theorem transact_resolve_posted_eq (s : ClientState) (pt : TransactionType) (a : Int)
    (hp : pt = TransactionType.Withdrawal ∨ pt = TransactionType.Deposit) :
    transact_resolve s pt a =
      { accepted := true
        state := { s with held_funds := s.held_funds - a
                          available_funds := s.available_funds + a }
        logs := [] } := by
  unfold transact_resolve
  rcases hp with rfl | rfl <;> rfl

theorem transact_chargeback_posted_eq (s : ClientState) (pt : TransactionType) (a : Int)
    (hp : pt = TransactionType.Withdrawal ∨ pt = TransactionType.Deposit) :
    transact_chargeback s pt a =
      { accepted := true
        state := { s with held_funds := s.held_funds - a, locked := true }
        logs := [] } := by
  unfold transact_chargeback
  rcases hp with rfl | rfl <;> rfl

theorem postedP_cases (r : SituatedRecord) (h : postedP r = true) :
    r.record.transaction_type = TransactionType.Withdrawal ∨
    r.record.transaction_type = TransactionType.Deposit := by
  unfold postedP at h
  split at h <;> simp_all

theorem transact_withdrawal_or_deposit_locked (s : ClientState) (sr : SituatedRecord) :
    (transact_withdrawal_or_deposit s sr).state.locked = s.locked := by
  unfold transact_withdrawal_or_deposit
  dsimp only
  split <;> first | rfl | (split <;> simp_all) | simp_all

theorem transact_dispute_locked (s : ClientState) (sr : SituatedRecord) :
    (transact_dispute s sr).state.locked = s.locked := by
  unfold transact_dispute
  dsimp only
  split
  · rfl
  · split
    · split <;> rfl
    · rfl

theorem transact_resolve_locked (s : ClientState) (pt : TransactionType) (a : Int) :
    (transact_resolve s pt a).state.locked = s.locked := by
  unfold transact_resolve
  split <;> rfl

theorem transaction_resolution_resolve_locked (s : ClientState) (r : SituatedRecord)
    (hr : r.record.transaction_type = .Resolve) :
    (transaction_resolution s r).state.locked = s.locked := by
  unfold transaction_resolution
  dsimp only
  split
  · rfl
  · split
    · simp only [hr]
      exact transact_resolve_locked ..
    · rfl

theorem transact_dispute_len_reject (s : ClientState) (sr : SituatedRecord)
    (ht : sr.record.transaction_type = .Dispute) (hl : s.locked = false)
    (hlen : (s.client_transactions sr.record.transaction_id).length ≠ 1) :
    transact s sr = { accepted := false, state := s, logs := [.warn] } := by
  unfold transact
  dsimp only
  rw [ht, hl]
  simp [hlen]

theorem transact_resolution_len_reject (s : ClientState) (sr : SituatedRecord)
    (ht : isResolutionRec sr = true) (hl : s.locked = false)
    (hlen : (s.client_transactions sr.record.transaction_id).length ≠ 2) :
    transact s sr = { accepted := false, state := s, logs := [.warn] } := by
  unfold isResolutionRec at ht
  unfold transact
  dsimp only
  split at ht <;> simp_all

theorem transact_family_locked_reject (s : ClientState) (sr : SituatedRecord)
    (ht : postedP sr = false) (hl : s.locked = true) :
    transact s sr = { accepted := false, state := s, logs := [.warn] } := by
  unfold transact
  dsimp only
  cases htt : sr.record.transaction_type <;> simp only [htt, hl] <;>
    simp [postedP, htt] at ht

theorem transact_locked_mono (s : ClientState) (sr : SituatedRecord)
    (hl : s.locked = true) : (transact s sr).state.locked = true := by
  unfold transact
  dsimp only
  cases htt : sr.record.transaction_type <;> simp only [htt, hl] <;>
    first
      | rfl
      | (by_cases hlen : (s.client_transactions sr.record.transaction_id).length = 0
         · rw [if_pos hlen, transact_withdrawal_or_deposit_locked]
           exact hl
         · rw [if_neg hlen]
           exact hl)

theorem add_transaction_locked_mono (s : ClientState) (sr : SituatedRecord)
    (hl : s.locked = true) : (add_transaction s sr).locked = true := by
  rw [add_transaction_locked]
  exact transact_locked_mono s sr hl

theorem transaction_resolution_chargeback_cases (s : ClientState) (r : SituatedRecord)
    (hcb : r.record.transaction_type = .Chargeback) :
    transaction_resolution s r = { accepted := false, state := s, logs := [.error] } ∨
    ∃ p, (s.client_transactions r.record.transaction_id).find? postedP = some p ∧
      transaction_resolution s r =
        transact_chargeback s p.record.transaction_type p.record.amount := by
  unfold transaction_resolution
  dsimp only
  split
  · exact Or.inl rfl
  · split
    · next prev hfind =>
      simp only [hcb]
      exact Or.inr ⟨prev, hfind, rfl⟩
    · exact Or.inl rfl

theorem transact_chargeback_not_posted (s : ClientState) (pt : TransactionType) (a : Int)
    (hw : pt ≠ TransactionType.Withdrawal) (hd : pt ≠ TransactionType.Deposit) :
    transact_chargeback s pt a = { accepted := false, state := s, logs := [] } := by
  unfold transact_chargeback
  cases pt <;> simp_all

theorem transact_locked_flip (s : ClientState) (sr : SituatedRecord)
    (h0 : s.locked = false) (h1 : (transact s sr).state.locked = true) :
    sr.record.transaction_type = .Chargeback ∧ (transact s sr).accepted = true ∧
    ∃ p, (s.client_transactions sr.record.transaction_id).find? postedP = some p ∧
      (transact s sr).state.held_funds = s.held_funds - p.record.amount ∧
      (transact s sr).state.available_funds = s.available_funds := by
  cases htt : sr.record.transaction_type
  case Withdrawal =>
    by_cases hlen : (s.client_transactions sr.record.transaction_id).length = 0
    · rw [transact_eq_wd s sr (by simp [postedP, htt]) hlen] at h1
      rw [transact_withdrawal_or_deposit_locked, h0] at h1
      simp at h1
    · rw [transact_posted_dup s sr (by simp [postedP, htt]) hlen] at h1
      simp [h0] at h1
  case Deposit =>
    by_cases hlen : (s.client_transactions sr.record.transaction_id).length = 0
    · rw [transact_eq_wd s sr (by simp [postedP, htt]) hlen] at h1
      rw [transact_withdrawal_or_deposit_locked, h0] at h1
      simp at h1
    · rw [transact_posted_dup s sr (by simp [postedP, htt]) hlen] at h1
      simp [h0] at h1
  case Dispute =>
    by_cases hlen : (s.client_transactions sr.record.transaction_id).length = 1
    · rw [transact_eq_dispute s sr htt h0 hlen] at h1
      rw [transact_dispute_locked, h0] at h1
      simp at h1
    · rw [transact_dispute_len_reject s sr htt h0 hlen] at h1
      simp [h0] at h1
  case Resolve =>
    by_cases hlen : (s.client_transactions sr.record.transaction_id).length = 2
    · rw [transact_eq_resolution s sr (by simp [isResolutionRec, htt]) h0 hlen] at h1
      rw [transaction_resolution_resolve_locked s sr htt, h0] at h1
      simp at h1
    · rw [transact_resolution_len_reject s sr (by simp [isResolutionRec, htt]) h0 hlen] at h1
      simp [h0] at h1
  case Chargeback =>
    by_cases hlen : (s.client_transactions sr.record.transaction_id).length = 2
    · have heqr := transact_eq_resolution s sr (by simp [isResolutionRec, htt]) h0 hlen
      rw [heqr] at h1
      rcases transaction_resolution_chargeback_cases s sr htt with hrej | ⟨p, hfind, hres⟩
      · rw [hrej] at h1
        simp [h0] at h1
      · rw [hres] at h1
        by_cases hw : p.record.transaction_type = TransactionType.Withdrawal
        · rw [transact_chargeback_posted_eq s _ _ (Or.inl hw)] at h1
          refine ⟨rfl, ?_, p, hfind, ?_, ?_⟩ <;>
            rw [heqr, hres, transact_chargeback_posted_eq s _ _ (Or.inl hw)]
        · by_cases hd : p.record.transaction_type = TransactionType.Deposit
          · rw [transact_chargeback_posted_eq s _ _ (Or.inr hd)] at h1
            refine ⟨rfl, ?_, p, hfind, ?_, ?_⟩ <;>
              rw [heqr, hres, transact_chargeback_posted_eq s _ _ (Or.inr hd)]
          · rw [transact_chargeback_not_posted s _ _ hw hd] at h1
            simp [h0] at h1
    · rw [transact_resolution_len_reject s sr (by simp [isResolutionRec, htt]) h0 hlen] at h1
      simp [h0] at h1

theorem isDisputeRec_not_posted (r : SituatedRecord) (h : isDisputeRec r = true) :
    postedP r = false := by
  unfold isDisputeRec at h
  unfold postedP
  split at h <;> simp_all

theorem isResolutionRec_not_posted (r : SituatedRecord) (h : isResolutionRec r = true) :
    postedP r = false := by
  unfold isResolutionRec at h
  unfold postedP
  split at h <;> simp_all

theorem histInv_countP {l : List SituatedRecord} (h : histInv l) :
    l.countP postedP ≤ 1 := by
  rcases h with rfl | ⟨p, hp, rfl | ⟨d, hd, rfl | ⟨f, hf, rfl⟩⟩⟩
  · simp
  · simp [List.countP_cons, hp]
  · simp [List.countP_cons, hp, isDisputeRec_not_posted d hd]
  · simp [List.countP_cons, hp, isDisputeRec_not_posted d hd,
      isResolutionRec_not_posted f hf]

theorem reachable_foldl (evs : List SituatedRecord) (s : ClientState) (h : Reachable s) :
    Reachable (evs.foldl add_transaction s) := by
  induction evs generalizing s with
  | nil => exact h
  | cons e t ih => exact ih _ (Reachable.step e h)

theorem reachable_run_client (cid : Nat) (evs : List SituatedRecord) :
    Reachable (run_client cid evs) :=
  reachable_foldl evs _ (Reachable.base cid)

theorem transact_dispute_missing_entry (s : ClientState) (sr : SituatedRecord)
    (hnil : s.client_transactions sr.record.transaction_id = []) :
    transact_dispute s sr = { accepted := false, state := s, logs := [.error] } := by
  unfold transact_dispute
  dsimp only
  rw [hnil]

theorem transact_dispute_no_posted_warn (s : ClientState) (sr : SituatedRecord)
    (hne : s.client_transactions sr.record.transaction_id ≠ [])
    (hfind : (s.client_transactions sr.record.transaction_id).find? postedP = none) :
    transact_dispute s sr = { accepted := false, state := s, logs := [.warn] } := by
  unfold transact_dispute
  dsimp only
  split
  · next heq => exact absurd heq hne
  · simp only [hfind]

theorem transaction_resolution_find_none (s : ClientState) (sr : SituatedRecord)
    (hfind : (s.client_transactions sr.record.transaction_id).find? postedP = none) :
    transaction_resolution s sr = { accepted := false, state := s, logs := [.error] } := by
  unfold transaction_resolution
  dsimp only
  split
  · rfl
  · simp only [hfind]

/-- The balance/lock/history effect of an accepted Dispute on a singly-posted
tx id (the only way a Dispute is accepted). -/
theorem accepted_dispute_effect (s : ClientState) (d p : SituatedRecord)
    (hd : d.record.transaction_type = .Dispute)
    (hhist : s.client_transactions d.record.transaction_id = [p])
    (hacc : (transact s d).accepted = true) :
    postedP p = true ∧ s.locked = false ∧
    (add_transaction s d).locked = s.locked ∧
    (add_transaction s d).client_transactions d.record.transaction_id = [p, d] ∧
    (p.record.transaction_type = .Withdrawal →
      (add_transaction s d).held_funds = s.held_funds + p.record.amount ∧
      (add_transaction s d).available_funds = s.available_funds) ∧
    (p.record.transaction_type = .Deposit →
      (add_transaction s d).available_funds = s.available_funds - p.record.amount ∧
      (add_transaction s d).held_funds = s.held_funds + p.record.amount) := by
  have hpd : postedP d = false := by simp [postedP, hd]
  have hlock : s.locked = false := by
    rcases transact_accepted_shape s d hacc with ⟨hp, _⟩ | ⟨_, hl, _⟩ | ⟨hf, _, _⟩
    · rw [hpd] at hp
      exact absurd hp (by simp)
    · exact hl
    · simp [isResolutionRec, hd] at hf
  have hlen1 : (s.client_transactions d.record.transaction_id).length = 1 := by
    rw [hhist]
    rfl
  have htd : transact s d = transact_dispute s d :=
    transact_eq_dispute s d hd hlock hlen1
  have hp : postedP p = true := by
    by_contra hpc
    have hp' : postedP p = false := by simpa using hpc
    have hrej : transact_dispute s d = { accepted := false, state := s, logs := [.warn] } := by
      unfold transact_dispute
      dsimp only
      rw [hhist]
      simp [List.find?, hp']
    rw [htd, hrej] at hacc
    simp at hacc
  have hde := transact_dispute_eq s d p [] hhist hp
  refine ⟨hp, hlock, ?_, ?_, ?_, ?_⟩
  · rw [add_transaction_locked, htd, transact_dispute_locked]
  · rw [add_transaction_hist, if_pos ⟨hacc, rfl⟩, hhist]
    rfl
  · intro hw
    constructor
    · rw [add_transaction_held, htd, hde]
      simp only [hw]
    · rw [add_transaction_available, htd, hde]
      simp only [hw]
  · intro hdep
    constructor
    · rw [add_transaction_available, htd, hde]
      simp only [hdep]
    · rw [add_transaction_held, htd, hde]
      simp only [hdep]

theorem round_dp_scale_le (dp : Nat) (d : Decimal) : (round_dp dp d).scale ≤ dp := by
  unfold round_dp
  split
  · assumption
  · exact Nat.le_refl dp

/-! ## Claim theorems -/

/-- Claim C1 counterexample: an accepted Dispute immediately followed by an
accepted Resolve on the same tx id does not always restore `available`.
Here the disputed posted transaction is a Withdrawal of 5: before the
Dispute `available = 5`, after the Resolve `available = 10`. -/
theorem c1_counterexample :
    (transact c1_base c1_dispute).accepted = true ∧
    (transact (add_transaction c1_base c1_dispute) c1_resolve).accepted = true ∧
    c1_base.available_funds = 5 ∧ c1_base.held_funds = 0 ∧
    (add_transaction (add_transaction c1_base c1_dispute) c1_resolve).held_funds = 0 ∧
    (add_transaction (add_transaction c1_base c1_dispute) c1_resolve).available_funds = 10 ∧
    (add_transaction (add_transaction c1_base c1_dispute) c1_resolve).available_funds ≠
      c1_base.available_funds := by
  decide

/-- Claim C1 (amended): for an accepted Dispute immediately followed by an
accepted Resolve on the same tx id with no other events for the account in
between, `held` returns to exactly its pre-dispute value; `available`
returns to its pre-dispute value when the disputed posted transaction was a
Deposit, but ends at the pre-dispute value plus the prior amount when it
was a Withdrawal. -/
theorem c1_dispute_resolve (s : ClientState) (d r p : SituatedRecord)
    (hd : d.record.transaction_type = .Dispute)
    (hr : r.record.transaction_type = .Resolve)
    (htx : r.record.transaction_id = d.record.transaction_id)
    (hhist : s.client_transactions d.record.transaction_id = [p])
    (hacc1 : (transact s d).accepted = true)
    (_hacc2 : (transact (add_transaction s d) r).accepted = true) :
    (add_transaction (add_transaction s d) r).held_funds = s.held_funds ∧
    (p.record.transaction_type = .Deposit →
      (add_transaction (add_transaction s d) r).available_funds = s.available_funds) ∧
    (p.record.transaction_type = .Withdrawal →
      (add_transaction (add_transaction s d) r).available_funds =
        s.available_funds + p.record.amount) := by
  obtain ⟨hp, hlock, hs1lock, hs1hist, hW, hD⟩ := accepted_dispute_effect s d p hd hhist hacc1
  have hs1hist' : (add_transaction s d).client_transactions r.record.transaction_id = [p, d] := by
    rw [htx]
    exact hs1hist
  have hlen2 : ((add_transaction s d).client_transactions r.record.transaction_id).length = 2 := by
    rw [hs1hist']
    rfl
  have hs1lock' : (add_transaction s d).locked = false := by rw [hs1lock, hlock]
  have htr : transact (add_transaction s d) r = transaction_resolution (add_transaction s d) r :=
    transact_eq_resolution _ r (by simp [isResolutionRec, hr]) hs1lock' hlen2
  have hres := transaction_resolution_eq (add_transaction s d) r p [d] hs1hist' hp
  simp only [hr] at hres
  have hrsv := transact_resolve_posted_eq (add_transaction s d) p.record.transaction_type
    p.record.amount (postedP_cases p hp)
  refine ⟨?_, ?_, ?_⟩
  · rw [add_transaction_held, htr, hres, hrsv]
    show (add_transaction s d).held_funds - p.record.amount = s.held_funds
    rcases postedP_cases p hp with hw | hdep
    · obtain ⟨h1, h2⟩ := hW hw
      rw [h1]
      omega
    · obtain ⟨h1, h2⟩ := hD hdep
      rw [h2]
      omega
  · intro hdep
    rw [add_transaction_available, htr, hres, hrsv]
    show (add_transaction s d).available_funds + p.record.amount = s.available_funds
    obtain ⟨h1, h2⟩ := hD hdep
    rw [h1]
    omega
  · intro hw
    rw [add_transaction_available, htr, hres, hrsv]
    show (add_transaction s d).available_funds + p.record.amount =
      s.available_funds + p.record.amount
    obtain ⟨h1, h2⟩ := hW hw
    rw [h2]

/-- Claim C1 witness: scenario C, deposit of 10 disputed and resolved; both
balances return to their pre-dispute values. -/
theorem c1_witness :
    (add_transaction (add_transaction c1w_base c1w_dispute) c1w_resolve).held_funds =
      c1w_base.held_funds ∧
    (c1w_p.record.transaction_type = .Deposit →
      (add_transaction (add_transaction c1w_base c1w_dispute) c1w_resolve).available_funds =
        c1w_base.available_funds) ∧
    (c1w_p.record.transaction_type = .Withdrawal →
      (add_transaction (add_transaction c1w_base c1w_dispute) c1w_resolve).available_funds =
        c1w_base.available_funds + c1w_p.record.amount) :=
  c1_dispute_resolve c1w_base c1w_dispute c1w_resolve c1w_p (by decide) (by decide) (by decide)
    (by decide) (by decide) (by decide)

/-- Claim C2 counterexample: on a locked account a fresh Withdrawal is not
rejected outright; `transact` returns true and the event IS appended to
`history[tx_id]`. -/
theorem c2_counterexample :
    c2_locked.locked = true ∧
    c2_withdrawal.record.transaction_type = .Withdrawal ∧
    (transact c2_locked c2_withdrawal).accepted = true ∧
    (add_transaction c2_locked c2_withdrawal).client_transactions 2 = [c2_withdrawal] := by
  decide

/-- Claim C2 (amended): for every Withdrawal arriving while `locked` is true,
`available`, `held` and `locked` are unchanged and a warning is reported, so
no withdrawal ever debits funds on a locked account; but when the tx id is
fresh the event is appended to `history[tx_id]` and `transact` reports true
(only a reused tx id makes it rejected and dropped). -/
theorem c2_locked_withdrawal (s : ClientState) (w : SituatedRecord)
    (ht : w.record.transaction_type = .Withdrawal) (hl : s.locked = true) :
    (add_transaction s w).available_funds = s.available_funds ∧
    (add_transaction s w).held_funds = s.held_funds ∧
    (add_transaction s w).locked = true ∧
    (transact s w).logs = [.warn] ∧
    ((s.client_transactions w.record.transaction_id).length = 0 →
      (transact s w).accepted = true ∧
      (add_transaction s w).client_transactions w.record.transaction_id =
        s.client_transactions w.record.transaction_id ++ [w]) ∧
    ((s.client_transactions w.record.transaction_id).length ≠ 0 →
      (transact s w).accepted = false ∧ add_transaction s w = s) := by
  by_cases hlen : (s.client_transactions w.record.transaction_id).length = 0
  · have h1 : transact s w = transact_withdrawal_or_deposit s w :=
      transact_eq_wd s w (by simp [postedP, ht]) hlen
    have h2 := transact_withdrawal_locked_eq s w ht hl
    refine ⟨?_, ?_, ?_, ?_, fun _ => ⟨by rw [h1, h2], ?_⟩, fun hn => absurd hlen hn⟩
    · rw [add_transaction_available, h1, h2]
    · rw [add_transaction_held, h1, h2]
    · rw [add_transaction_locked, h1, h2]
      exact hl
    · rw [h1, h2]
    · rw [add_transaction_hist, if_pos ⟨by rw [h1, h2], rfl⟩]
  · have h2 := transact_posted_dup s w (by simp [postedP, ht]) hlen
    have hrej : (transact s w).accepted = false := by rw [h2]
    have hadd := add_transaction_rejected_eq s w hrej
    exact ⟨by rw [hadd], by rw [hadd], by rw [hadd]; exact hl, by rw [h2],
      fun h0 => absurd h0 hlen, fun _ => ⟨hrej, hadd⟩⟩

/-- Claim C2 witness: the concrete locked account with a fresh withdrawal. -/
theorem c2_witness :
    (add_transaction c2_locked c2_withdrawal).available_funds = c2_locked.available_funds ∧
    (add_transaction c2_locked c2_withdrawal).held_funds = c2_locked.held_funds ∧
    (add_transaction c2_locked c2_withdrawal).locked = true ∧
    (transact c2_locked c2_withdrawal).logs = [.warn] ∧
    ((c2_locked.client_transactions c2_withdrawal.record.transaction_id).length = 0 →
      (transact c2_locked c2_withdrawal).accepted = true ∧
      (add_transaction c2_locked c2_withdrawal).client_transactions
          c2_withdrawal.record.transaction_id =
        c2_locked.client_transactions c2_withdrawal.record.transaction_id ++ [c2_withdrawal]) ∧
    ((c2_locked.client_transactions c2_withdrawal.record.transaction_id).length ≠ 0 →
      (transact c2_locked c2_withdrawal).accepted = false ∧
      add_transaction c2_locked c2_withdrawal = c2_locked) :=
  c2_locked_withdrawal c2_locked c2_withdrawal (by decide) (by decide)

/-- Claim C3: a Withdrawal on an unlocked account with a fresh tx id whose
amount exceeds `available` leaves both balances unchanged, reports a
warning, and is still appended to `history[tx_id]` (length 1 afterwards). -/
theorem c3_insufficient_withdrawal (s : ClientState) (w : SituatedRecord)
    (ht : w.record.transaction_type = .Withdrawal) (hl : s.locked = false)
    (hfresh : s.client_transactions w.record.transaction_id = [])
    (hamt : s.available_funds < w.record.amount) :
    (transact s w).accepted = true ∧
    (transact s w).logs = [.warn] ∧
    (add_transaction s w).available_funds = s.available_funds ∧
    (add_transaction s w).held_funds = s.held_funds ∧
    (add_transaction s w).client_transactions w.record.transaction_id = [w] := by
  have hamt' : ¬ w.record.amount ≤ s.available_funds := not_le.mpr hamt
  have hlen : (s.client_transactions w.record.transaction_id).length = 0 := by
    rw [hfresh]
    rfl
  have h1 : transact s w = transact_withdrawal_or_deposit s w :=
    transact_eq_wd s w (by simp [postedP, ht]) hlen
  have h2 := transact_withdrawal_insufficient_eq s w ht hl hamt'
  refine ⟨by rw [h1, h2], by rw [h1, h2], ?_, ?_, ?_⟩
  · rw [add_transaction_available, h1, h2]
  · rw [add_transaction_held, h1, h2]
  · rw [add_transaction_hist, if_pos ⟨by rw [h1, h2], rfl⟩, hfresh]
    rfl

/-- Claim C3 witness: scenario B, deposit 5 then withdraw 9. -/
theorem c3_witness :
    (transact c3_base c3_withdrawal).accepted = true ∧
    (transact c3_base c3_withdrawal).logs = [.warn] ∧
    (add_transaction c3_base c3_withdrawal).available_funds = c3_base.available_funds ∧
    (add_transaction c3_base c3_withdrawal).held_funds = c3_base.held_funds ∧
    (add_transaction c3_base c3_withdrawal).client_transactions
      c3_withdrawal.record.transaction_id = [c3_withdrawal] :=
  c3_insufficient_withdrawal c3_base c3_withdrawal (by decide) (by decide) (by decide) (by decide)

/-- Claim C4: an accepted Dispute on a singly-posted tx id holds the prior
amount: if the prior posted transaction was a Withdrawal, `held` increases by
the prior amount and `available` is unchanged; if it was a Deposit,
`available` decreases and `held` increases by the prior amount. -/
theorem c4_dispute_arithmetic (s : ClientState) (d p : SituatedRecord)
    (hd : d.record.transaction_type = .Dispute)
    (hhist : s.client_transactions d.record.transaction_id = [p])
    (hacc : (transact s d).accepted = true) :
    (p.record.transaction_type = .Withdrawal →
      (add_transaction s d).held_funds = s.held_funds + p.record.amount ∧
      (add_transaction s d).available_funds = s.available_funds) ∧
    (p.record.transaction_type = .Deposit →
      (add_transaction s d).available_funds = s.available_funds - p.record.amount ∧
      (add_transaction s d).held_funds = s.held_funds + p.record.amount) := by
  obtain ⟨_, _, _, _, hw, hdep⟩ := accepted_dispute_effect s d p hd hhist hacc
  exact ⟨hw, hdep⟩

/-- Claim C4 witness: scenario E, disputing the withdrawal of 5 holds 5 and
leaves available at 15. -/
theorem c4_witness :
    (c4_p.record.transaction_type = .Withdrawal →
      (add_transaction c4_base c4_dispute).held_funds = c4_base.held_funds + c4_p.record.amount ∧
      (add_transaction c4_base c4_dispute).available_funds = c4_base.available_funds) ∧
    (c4_p.record.transaction_type = .Deposit →
      (add_transaction c4_base c4_dispute).available_funds =
        c4_base.available_funds - c4_p.record.amount ∧
      (add_transaction c4_base c4_dispute).held_funds = c4_base.held_funds + c4_p.record.amount) :=
  c4_dispute_arithmetic c4_base c4_dispute c4_p (by decide) (by decide) (by decide)

/-- Claim C5: `locked` starts false, goes true only through an accepted
Chargeback (which also subtracts the prior posted amount from `held` and
leaves `available` untouched), and never returns to false. -/
theorem c5_lock_lifecycle :
    (∀ client_id, (ClientState.new client_id).locked = false) ∧
    (∀ s sr, s.locked = true → (add_transaction s sr).locked = true) ∧
    (∀ s sr, s.locked = false → (add_transaction s sr).locked = true →
      sr.record.transaction_type = .Chargeback ∧ (transact s sr).accepted = true ∧
      ∃ p, (s.client_transactions sr.record.transaction_id).find? postedP = some p ∧
        (add_transaction s sr).held_funds = s.held_funds - p.record.amount ∧
        (add_transaction s sr).available_funds = s.available_funds) := by
  refine ⟨fun _ => rfl, fun s sr h => add_transaction_locked_mono s sr h,
    fun s sr h0 h1 => ?_⟩
  rw [add_transaction_locked] at h1
  obtain ⟨htt, hacc, p, hfind, hheld, havail⟩ := transact_locked_flip s sr h0 h1
  exact ⟨htt, hacc, p, hfind, by rw [add_transaction_held]; exact hheld,
    by rw [add_transaction_available]; exact havail⟩

/-- Claim C5 witness: a concrete chargeback flips the lock, subtracts the
held amount and leaves available untouched. -/
theorem c5_witness :
    c5_pre.locked = false ∧ (add_transaction c5_pre c5_cb).locked = true ∧
    (c5_cb.record.transaction_type = .Chargeback ∧ (transact c5_pre c5_cb).accepted = true ∧
      ∃ p, (c5_pre.client_transactions c5_cb.record.transaction_id).find? postedP = some p ∧
        (add_transaction c5_pre c5_cb).held_funds = c5_pre.held_funds - p.record.amount ∧
        (add_transaction c5_pre c5_cb).available_funds = c5_pre.available_funds) :=
  ⟨by decide, by decide, c5_lock_lifecycle.2.2 c5_pre c5_cb (by decide) (by decide)⟩

/-- Claim C6: a Deposit or Withdrawal whose tx id already has a non-empty
history is rejected with a warning and mutates nothing; consequently every
reachable history holds at most one posted transaction per tx id. -/
theorem c6_no_tx_reuse :
    (∀ s sr, postedP sr = true →
      (s.client_transactions sr.record.transaction_id).length ≠ 0 →
      (transact s sr).accepted = false ∧ (transact s sr).logs = [.warn] ∧
      add_transaction s sr = s) ∧
    (∀ s, Reachable s → ∀ tx, (s.client_transactions tx).countP postedP ≤ 1) := by
  constructor
  · intro s sr hp hlen
    have h := transact_posted_dup s sr hp hlen
    exact ⟨by rw [h], by rw [h], add_transaction_rejected_eq s sr (by rw [h])⟩
  · intro s hs tx
    exact histInv_countP (reachable_histInv hs tx)

/-- Claim C6 witness: scenario F, the second deposit reusing tx id 1 is
rejected and the ledger is unchanged. -/
theorem c6_witness :
    ((transact (run_client 6 c6_events) c6_dup).accepted = false ∧
      (transact (run_client 6 c6_events) c6_dup).logs = [.warn] ∧
      add_transaction (run_client 6 c6_events) c6_dup = run_client 6 c6_events) ∧
    ((run_client 6 c6_events).client_transactions 1).countP postedP ≤ 1 :=
  ⟨c6_no_tx_reuse.1 (run_client 6 c6_events) c6_dup (by decide) (by decide),
   c6_no_tx_reuse.2 (run_client 6 c6_events) (reachable_run_client 6 c6_events) 1⟩

/-- Claim C7: a rejected event is atomic; when `transact` returns false the
whole ledger state (balances, lock and history) is exactly as before. -/
theorem c7_rejection_atomic (s : ClientState) (sr : SituatedRecord)
    (h : (transact s sr).accepted = false) :
    (transact s sr).state = s ∧ add_transaction s sr = s :=
  ⟨transact_rejected s sr h, add_transaction_rejected_eq s sr h⟩

/-- Claim C7 witness: a dispute on a never-posted tx id of a fresh account
is rejected and leaves the state untouched. -/
theorem c7_witness :
    (transact (ClientState.new 1) c7_event).state = ClientState.new 1 ∧
    add_transaction (ClientState.new 1) c7_event = ClientState.new 1 :=
  c7_rejection_atomic (ClientState.new 1) c7_event (by decide)

/-- Claim C8: balances are not floor-clamped at zero; disputing a deposit
whose funds were already withdrawn drives `available` strictly negative. -/
theorem c8_negative_balance :
    (play_with_money c8_events (fun _ => none) 1).map ClientState.available_funds =
      some (-5) ∧
    (play_with_money c8_events (fun _ => none) 1).map ClientState.held_funds = some 5 ∧
    (-5 : Int) < 0 := by
  decide

/-- Claim C9 (amended): on reachable states every non-empty `history[tx_id]`
starts with a posted transaction (so the defensive "no prior posted
transaction" branch of dispute/resolution cannot fire), histories have
length at most 3 and are append-only; and even on arbitrary states the
defensive branch drops the event without mutating anything — reporting a
warning when reached from a Dispute on a non-empty history, and an error
when the history entry is missing entirely or when reached from a
Resolve/Chargeback. -/
theorem c9_defensive_unreachable :
    (∀ s, Reachable s → ∀ tx, histInv (s.client_transactions tx)) ∧
    (∀ s, Reachable s → ∀ tx, s.client_transactions tx ≠ [] →
      ∃ p, (s.client_transactions tx).find? postedP = some p ∧ postedP p = true) ∧
    (∀ s, Reachable s → ∀ tx, (s.client_transactions tx).length ≤ 3) ∧
    (∀ s sr tx, ∃ added, (add_transaction s sr).client_transactions tx =
      s.client_transactions tx ++ added) ∧
    (∀ s sr, (s.client_transactions sr.record.transaction_id).find? postedP = none →
      (transact_dispute s sr).accepted = false ∧ (transact_dispute s sr).state = s ∧
      (s.client_transactions sr.record.transaction_id ≠ [] →
        (transact_dispute s sr).logs = [.warn]) ∧
      (s.client_transactions sr.record.transaction_id = [] →
        (transact_dispute s sr).logs = [.error]) ∧
      (transaction_resolution s sr).accepted = false ∧
      (transaction_resolution s sr).state = s ∧
      (transaction_resolution s sr).logs = [.error]) := by
  refine ⟨fun s hs tx => reachable_histInv hs tx, ?_, ?_, ?_, ?_⟩
  · intro s hs tx hne
    obtain ⟨p, t, heq, hp⟩ := histInv_head_posted (reachable_histInv hs tx) hne
    exact ⟨p, by rw [heq, find_posted_cons p t hp], hp⟩
  · intro s hs tx
    exact histInv_length_le (reachable_histInv hs tx)
  · intro s sr tx
    rw [add_transaction_hist]
    split
    · exact ⟨[sr], rfl⟩
    · exact ⟨[], (List.append_nil _).symm⟩
  · intro s sr hfind
    have hr := transaction_resolution_find_none s sr hfind
    refine ⟨?_, ?_, ?_, ?_, by rw [hr], by rw [hr], by rw [hr]⟩
    · by_cases hnil : s.client_transactions sr.record.transaction_id = []
      · rw [transact_dispute_missing_entry s sr hnil]
      · rw [transact_dispute_no_posted_warn s sr hnil hfind]
    · by_cases hnil : s.client_transactions sr.record.transaction_id = []
      · rw [transact_dispute_missing_entry s sr hnil]
      · rw [transact_dispute_no_posted_warn s sr hnil hfind]
    · intro hne
      rw [transact_dispute_no_posted_warn s sr hne hfind]
    · intro hnil
      rw [transact_dispute_missing_entry s sr hnil]

/-- Claim C9 counterexample: when the defensive branch is reached from a
Dispute whose non-empty history lacks a posted transaction, the event is
dropped with a warning report, not the error report the claim states. -/
theorem c9_counterexample :
    c9_bad_state.client_transactions 3 ≠ [] ∧
    (c9_bad_state.client_transactions 3).find? postedP = none ∧
    (transact c9_bad_state c9_bad_dispute).accepted = false ∧
    (transact c9_bad_state c9_bad_dispute).logs = [.warn] ∧
    (transact c9_bad_state c9_bad_dispute).logs ≠ [.error] := by
  decide

/-- Claim C9 witness: the invariant evaluated on a concrete full
deposit-dispute-chargeback history, and the defensive branch exercised both
on a fresh account (missing entry, error report) and on the inconsistent
state (non-empty history without a posted transaction, warning report). -/
theorem c9_witness :
    histInv ((run_client 5 c9_events).client_transactions 1) ∧
    (∃ p, ((run_client 5 c9_events).client_transactions 1).find? postedP = some p ∧
      postedP p = true) ∧
    ((run_client 5 c9_events).client_transactions 1).length ≤ 3 ∧
    ((transact_dispute (ClientState.new 4) c9_bad).accepted = false ∧
      (transact_dispute (ClientState.new 4) c9_bad).state = ClientState.new 4 ∧
      ((ClientState.new 4).client_transactions c9_bad.record.transaction_id ≠ [] →
        (transact_dispute (ClientState.new 4) c9_bad).logs = [.warn]) ∧
      ((ClientState.new 4).client_transactions c9_bad.record.transaction_id = [] →
        (transact_dispute (ClientState.new 4) c9_bad).logs = [.error]) ∧
      (transaction_resolution (ClientState.new 4) c9_bad).accepted = false ∧
      (transaction_resolution (ClientState.new 4) c9_bad).state = ClientState.new 4 ∧
      (transaction_resolution (ClientState.new 4) c9_bad).logs = [.error]) ∧
    ((transact_dispute c9_bad_state c9_bad_dispute).accepted = false ∧
      (transact_dispute c9_bad_state c9_bad_dispute).state = c9_bad_state ∧
      (c9_bad_state.client_transactions c9_bad_dispute.record.transaction_id ≠ [] →
        (transact_dispute c9_bad_state c9_bad_dispute).logs = [.warn]) ∧
      (c9_bad_state.client_transactions c9_bad_dispute.record.transaction_id = [] →
        (transact_dispute c9_bad_state c9_bad_dispute).logs = [.error]) ∧
      (transaction_resolution c9_bad_state c9_bad_dispute).accepted = false ∧
      (transaction_resolution c9_bad_state c9_bad_dispute).state = c9_bad_state ∧
      (transaction_resolution c9_bad_state c9_bad_dispute).logs = [.error]) :=
  ⟨c9_defensive_unreachable.1 _ (reachable_run_client 5 c9_events) 1,
   c9_defensive_unreachable.2.1 _ (reachable_run_client 5 c9_events) 1 (by decide),
   c9_defensive_unreachable.2.2.1 _ (reachable_run_client 5 c9_events) 1,
   c9_defensive_unreachable.2.2.2.2 (ClientState.new 4) c9_bad (by decide),
   c9_defensive_unreachable.2.2.2.2 c9_bad_state c9_bad_dispute (by decide)⟩

/-- Claim C10: the ingestion adapter normalizes an empty amount string to
decimal zero, and parses then rounds every non-empty decimal literal with
`round_dp 4`, so every amount that reaches the core has scale at most 4. -/
theorem c10_amount_normalization :
    from_string_with_precision (String.mk []) PRECISION =
      some { mantissa := 0, scale := 0 } ∧
    (∀ val d, from_string_with_precision val PRECISION = some d → d.scale ≤ PRECISION) := by
  constructor
  · rfl
  · intro val d h
    unfold from_string_with_precision at h
    split at h
    · have hzero : ({ mantissa := 0, scale := 0 } : Decimal) = d := Option.some.inj h
      rw [← hzero]
      exact Nat.zero_le _
    · cases hfc : decimalFromChars val.data with
      | none =>
        rw [hfc] at h
        simp at h
      | some d0 =>
        rw [hfc] at h
        simp only [Option.map_some'] at h
        rw [← Option.some.inj h]
        exact round_dp_scale_le PRECISION d0

/-- Claim C10 witness: the literal 1.23456 parses with scale 5 and is
rounded half-to-even to 12346 at scale 4, within the bound. -/
theorem c10_witness :
    from_string_with_precision c10_input PRECISION =
      some { mantissa := 12346, scale := 4 } ∧
    ({ mantissa := 12346, scale := 4 } : Decimal).scale ≤ PRECISION :=
  ⟨by decide,
   c10_amount_normalization.2 c10_input { mantissa := 12346, scale := 4 } (by decide)⟩

end PlayingWithMoney
